import Mathlib

/-!
# HPROF record writer interface (`src/hprof/hprof.h`)

A shallow embedding of the declarations of `hprof.h`: the tag enumerations, the record and
context structures, the `UNIQUE_ERROR()` and identifier macros, and models of the record
operations the header declares.
-/

namespace art.hprof

/-! ## Enumerations -/

/-- Top-level record tags: `enum hprof_tag_t`. -/
inductive hprof_tag_t where
  | HPROF_TAG_STRING
  | HPROF_TAG_LOAD_CLASS
  | HPROF_TAG_UNLOAD_CLASS
  | HPROF_TAG_STACK_FRAME
  | HPROF_TAG_STACK_TRACE
  | HPROF_TAG_ALLOC_SITES
  | HPROF_TAG_HEAP_SUMMARY
  | HPROF_TAG_START_THREAD
  | HPROF_TAG_END_THREAD
  | HPROF_TAG_HEAP_DUMP
  | HPROF_TAG_HEAP_DUMP_SEGMENT
  | HPROF_TAG_HEAP_DUMP_END
  | HPROF_TAG_CPU_SAMPLES
  | HPROF_TAG_CONTROL_SETTINGS
  deriving DecidableEq, Repr, Fintype

/-- The enumerator values of `hprof_tag_t`, as written in the header. -/
def hprof_tag_t.val : hprof_tag_t → Nat
  | .HPROF_TAG_STRING => 0x01
  | .HPROF_TAG_LOAD_CLASS => 0x02
  | .HPROF_TAG_UNLOAD_CLASS => 0x03
  | .HPROF_TAG_STACK_FRAME => 0x04
  | .HPROF_TAG_STACK_TRACE => 0x05
  | .HPROF_TAG_ALLOC_SITES => 0x06
  | .HPROF_TAG_HEAP_SUMMARY => 0x07
  | .HPROF_TAG_START_THREAD => 0x0A
  | .HPROF_TAG_END_THREAD => 0x0B
  | .HPROF_TAG_HEAP_DUMP => 0x0C
  | .HPROF_TAG_HEAP_DUMP_SEGMENT => 0x1C
  | .HPROF_TAG_HEAP_DUMP_END => 0x2C
  | .HPROF_TAG_CPU_SAMPLES => 0x0D
  | .HPROF_TAG_CONTROL_SETTINGS => 0x0E

/-- Every enumerator of `hprof_tag_t`, in declaration order. -/
def hprof_tag_t.all : List hprof_tag_t :=
  [.HPROF_TAG_STRING, .HPROF_TAG_LOAD_CLASS, .HPROF_TAG_UNLOAD_CLASS, .HPROF_TAG_STACK_FRAME,
   .HPROF_TAG_STACK_TRACE, .HPROF_TAG_ALLOC_SITES, .HPROF_TAG_HEAP_SUMMARY,
   .HPROF_TAG_START_THREAD, .HPROF_TAG_END_THREAD, .HPROF_TAG_HEAP_DUMP,
   .HPROF_TAG_HEAP_DUMP_SEGMENT, .HPROF_TAG_HEAP_DUMP_END, .HPROF_TAG_CPU_SAMPLES,
   .HPROF_TAG_CONTROL_SETTINGS]

/-- Values for the first byte of HEAP_DUMP and HEAP_DUMP_SEGMENT records:
`enum hprof_heap_tag_t`. -/
inductive hprof_heap_tag_t where
  | HPROF_ROOT_UNKNOWN
  | HPROF_ROOT_JNI_GLOBAL
  | HPROF_ROOT_JNI_LOCAL
  | HPROF_ROOT_JAVA_FRAME
  | HPROF_ROOT_NATIVE_STACK
  | HPROF_ROOT_STICKY_CLASS
  | HPROF_ROOT_THREAD_BLOCK
  | HPROF_ROOT_MONITOR_USED
  | HPROF_ROOT_THREAD_OBJECT
  | HPROF_CLASS_DUMP
  | HPROF_INSTANCE_DUMP
  | HPROF_OBJECT_ARRAY_DUMP
  | HPROF_PRIMITIVE_ARRAY_DUMP
  | HPROF_HEAP_DUMP_INFO
  | HPROF_ROOT_INTERNED_STRING
  | HPROF_ROOT_FINALIZING
  | HPROF_ROOT_DEBUGGER
  | HPROF_ROOT_REFERENCE_CLEANUP
  | HPROF_ROOT_VM_INTERNAL
  | HPROF_ROOT_JNI_MONITOR
  | HPROF_UNREACHABLE
  | HPROF_PRIMITIVE_ARRAY_NODATA_DUMP
  deriving DecidableEq, Repr, Fintype

/-- The enumerator values of `hprof_heap_tag_t`, as written in the header. -/
def hprof_heap_tag_t.val : hprof_heap_tag_t → Nat
  | .HPROF_ROOT_UNKNOWN => 0xFF
  | .HPROF_ROOT_JNI_GLOBAL => 0x01
  | .HPROF_ROOT_JNI_LOCAL => 0x02
  | .HPROF_ROOT_JAVA_FRAME => 0x03
  | .HPROF_ROOT_NATIVE_STACK => 0x04
  | .HPROF_ROOT_STICKY_CLASS => 0x05
  | .HPROF_ROOT_THREAD_BLOCK => 0x06
  | .HPROF_ROOT_MONITOR_USED => 0x07
  | .HPROF_ROOT_THREAD_OBJECT => 0x08
  | .HPROF_CLASS_DUMP => 0x20
  | .HPROF_INSTANCE_DUMP => 0x21
  | .HPROF_OBJECT_ARRAY_DUMP => 0x22
  | .HPROF_PRIMITIVE_ARRAY_DUMP => 0x23
  | .HPROF_HEAP_DUMP_INFO => 0xfe
  | .HPROF_ROOT_INTERNED_STRING => 0x89
  | .HPROF_ROOT_FINALIZING => 0x8a
  | .HPROF_ROOT_DEBUGGER => 0x8b
  | .HPROF_ROOT_REFERENCE_CLEANUP => 0x8c
  | .HPROF_ROOT_VM_INTERNAL => 0x8d
  | .HPROF_ROOT_JNI_MONITOR => 0x8e
  | .HPROF_UNREACHABLE => 0x90
  | .HPROF_PRIMITIVE_ARRAY_NODATA_DUMP => 0xc3

/-- Every enumerator of `hprof_heap_tag_t`, in declaration order. -/
def hprof_heap_tag_t.all : List hprof_heap_tag_t :=
  [.HPROF_ROOT_UNKNOWN, .HPROF_ROOT_JNI_GLOBAL, .HPROF_ROOT_JNI_LOCAL, .HPROF_ROOT_JAVA_FRAME,
   .HPROF_ROOT_NATIVE_STACK, .HPROF_ROOT_STICKY_CLASS, .HPROF_ROOT_THREAD_BLOCK,
   .HPROF_ROOT_MONITOR_USED, .HPROF_ROOT_THREAD_OBJECT, .HPROF_CLASS_DUMP,
   .HPROF_INSTANCE_DUMP, .HPROF_OBJECT_ARRAY_DUMP, .HPROF_PRIMITIVE_ARRAY_DUMP,
   .HPROF_HEAP_DUMP_INFO, .HPROF_ROOT_INTERNED_STRING, .HPROF_ROOT_FINALIZING,
   .HPROF_ROOT_DEBUGGER, .HPROF_ROOT_REFERENCE_CLEANUP, .HPROF_ROOT_VM_INTERNAL,
   .HPROF_ROOT_JNI_MONITOR, .HPROF_UNREACHABLE, .HPROF_PRIMITIVE_ARRAY_NODATA_DUMP]

/-- The members of `hprof_heap_tag_t` whose name starts with `HPROF_ROOT_`. -/
def hprof_heap_tag_t.isRoot : hprof_heap_tag_t → Bool
  | .HPROF_ROOT_UNKNOWN => true
  | .HPROF_ROOT_JNI_GLOBAL => true
  | .HPROF_ROOT_JNI_LOCAL => true
  | .HPROF_ROOT_JAVA_FRAME => true
  | .HPROF_ROOT_NATIVE_STACK => true
  | .HPROF_ROOT_STICKY_CLASS => true
  | .HPROF_ROOT_THREAD_BLOCK => true
  | .HPROF_ROOT_MONITOR_USED => true
  | .HPROF_ROOT_THREAD_OBJECT => true
  | .HPROF_ROOT_INTERNED_STRING => true
  | .HPROF_ROOT_FINALIZING => true
  | .HPROF_ROOT_DEBUGGER => true
  | .HPROF_ROOT_REFERENCE_CLEANUP => true
  | .HPROF_ROOT_VM_INTERNAL => true
  | .HPROF_ROOT_JNI_MONITOR => true
  | _ => false

/-- The members the header lists under its `standard` comment. -/
def hprof_heap_tag_t.isStandard : hprof_heap_tag_t → Bool
  | .HPROF_ROOT_UNKNOWN => true
  | .HPROF_ROOT_JNI_GLOBAL => true
  | .HPROF_ROOT_JNI_LOCAL => true
  | .HPROF_ROOT_JAVA_FRAME => true
  | .HPROF_ROOT_NATIVE_STACK => true
  | .HPROF_ROOT_STICKY_CLASS => true
  | .HPROF_ROOT_THREAD_BLOCK => true
  | .HPROF_ROOT_MONITOR_USED => true
  | .HPROF_ROOT_THREAD_OBJECT => true
  | .HPROF_CLASS_DUMP => true
  | .HPROF_INSTANCE_DUMP => true
  | .HPROF_OBJECT_ARRAY_DUMP => true
  | .HPROF_PRIMITIVE_ARRAY_DUMP => true
  | _ => false

/-- The members the header marks `obsolete`. -/
def hprof_heap_tag_t.isObsolete : hprof_heap_tag_t → Bool
  | .HPROF_ROOT_FINALIZING => true
  | .HPROF_ROOT_REFERENCE_CLEANUP => true
  | .HPROF_UNREACHABLE => true
  | _ => false

/-- Conversion of a heap tag to `uint8_t`: the first byte of a heap sub-record, and the type
of the `gcScanState` field of `hprof_context_t`. -/
def hprof_heap_tag_t.toU8 (t : hprof_heap_tag_t) : Nat := t.val % 2 ^ 8

/-- The thirteen root kinds the specification names for a heap root sub-record, in the
order it lists them: unknown, JNI global, JNI local, Java frame, native stack, sticky class,
thread block, monitor used, thread object, interned string, debugger, VM internal,
JNI monitor. -/
def specRootKinds : List hprof_heap_tag_t :=
  [.HPROF_ROOT_UNKNOWN, .HPROF_ROOT_JNI_GLOBAL, .HPROF_ROOT_JNI_LOCAL, .HPROF_ROOT_JAVA_FRAME,
   .HPROF_ROOT_NATIVE_STACK, .HPROF_ROOT_STICKY_CLASS, .HPROF_ROOT_THREAD_BLOCK,
   .HPROF_ROOT_MONITOR_USED, .HPROF_ROOT_THREAD_OBJECT, .HPROF_ROOT_INTERNED_STRING,
   .HPROF_ROOT_DEBUGGER, .HPROF_ROOT_VM_INTERNAL, .HPROF_ROOT_JNI_MONITOR]

/-! ## Constants, identifiers and `UNIQUE_ERROR()` -/

/-- The value of `sizeof (uint32_t)`: 32 bits in 8-bit bytes. -/
def sizeof_uint32_t : Nat := 32 / 8

/-- Macro `#define HPROF_ID_SIZE (sizeof (uint32_t))`. -/
def HPROF_ID_SIZE : Nat := sizeof_uint32_t

/-- Macro `#define HPROF_TIME 0`. -/
def HPROF_TIME : Nat := 0

/-- Macro `#define HPROF_NULL_STACK_TRACE 0`. -/
def HPROF_NULL_STACK_TRACE : Nat := 0

/-- Macro `#define HPROF_NULL_THREAD 0`. -/
def HPROF_NULL_THREAD : Nat := 0

/-- Conversion of an unsigned value to a 32-bit `int` (two's complement). -/
def toInt32 (n : Nat) : Int :=
  if n % 2 ^ 32 < 2 ^ 31 then ((n % 2 ^ 32 : Nat) : Int) else ((n % 2 ^ 32 : Nat) : Int) - 2 ^ 32

/-- The operand of the unary minus in `UNIQUE_ERROR()`:
`(((uintptr_t)__func__) << 16 | __LINE__) & (0x7fffffff)`, evaluated in `uintptr_t` arithmetic
of `w` bits. `func` is the address of `__func__`, `line` is `__LINE__`; `<<` binds tighter
than `|`, and the shift drops the bits that leave the `w`-bit word. -/
def UNIQUE_ERROR_masked (w func line : Nat) : Nat :=
  (((func % 2 ^ w) <<< 16) % 2 ^ w ||| line % 2 ^ w) &&& 0x7fffffff

/-- The expression `-((((uintptr_t)__func__) << 16 | __LINE__) & (0x7fffffff))` in `uintptr_t`
arithmetic of `w` bits: the unary minus of an unsigned value is taken modulo `2 ^ w`. -/
def UNIQUE_ERROR_uintptr (w func line : Nat) : Nat :=
  (2 ^ w - UNIQUE_ERROR_masked w func line) % 2 ^ w

/-- Macro `UNIQUE_ERROR()` as the `int` the operations return, for pointers of `w` bits. -/
def UNIQUE_ERROR (w func line : Nat) : Int := toInt32 (UNIQUE_ERROR_uintptr w func line)

/-! ## Records and contexts -/

/-- A top-level hprof record: `struct hprof_record_t`. `body` is the allocated buffer
(`allocLen` bytes, one list element per byte) of which the first `length` bytes are in use. -/
structure hprof_record_t where
  body : List Nat
  time : Nat
  length : Nat
  allocLen : Nat
  tag : Nat
  dirty : Bool
  deriving DecidableEq, Repr

/-- The bytes of the record body: the part of the buffer that is in use. -/
def hprof_record_t.contents (rec : hprof_record_t) : List Nat := rec.body.take rec.length

/-- The ranges the field types of `hprof_record_t` impose (`uint32_t time`, `uint32_t length`,
`uint8_t tag`, a buffer of `allocLen` octets) together with `length <= allocLen`. -/
def hprof_record_t.WF (rec : hprof_record_t) : Prop :=
  rec.body.length = rec.allocLen ∧ rec.length ≤ rec.allocLen ∧ rec.time < 2 ^ 32 ∧
    rec.length < 2 ^ 32 ∧ rec.tag < 2 ^ 8 ∧ ∀ b ∈ rec.body, b < 2 ^ 8

instance (rec : hprof_record_t) : Decidable rec.WF := by
  unfold hprof_record_t.WF; infer_instance

/-- A record in the middle of a dump: a `HPROF_TAG_HEAP_DUMP_SEGMENT` record (tag `0x1C`) with
a four-byte buffer of which one byte, a `HPROF_ROOT_UNKNOWN` tag, is in use. -/
def sampleRecord : hprof_record_t :=
  { body := [0xFF, 0, 0, 0], time := 0, length := 1, allocLen := 4, tag := 0x1C, dirty := true }

/-- The heap being emitted: `enum HprofHeapId`. -/
inductive HprofHeapId where
  | HPROF_HEAP_DEFAULT
  | HPROF_HEAP_ZYGOTE
  | HPROF_HEAP_APP
  deriving DecidableEq, Repr

/-- The enumerator values of `HprofHeapId` (`'Z'` is 90, `'A'` is 65). -/
def HprofHeapId.val : HprofHeapId → Nat
  | .HPROF_HEAP_DEFAULT => 0
  | .HPROF_HEAP_ZYGOTE => 90
  | .HPROF_HEAP_APP => 65

/-- The output stream a record is flushed to (`FILE *`): the bytes written so far, and whether
the stream refuses further writes. -/
structure FILE where
  data : List Nat
  failing : Bool
  deriving DecidableEq, Repr

/-- A sink that accepts writes and has nothing written yet. -/
def emptySink : FILE := { data := [], failing := false }

/-- Per-dump state: `struct hprof_context_t`. The `open_memstream` buffer
(`fileDataPtr`, `fileDataSize`) is the `data` of `memFp`. -/
structure hprof_context_t where
  curRec : hprof_record_t
  gcThreadSerialNumber : Nat
  gcScanState : Nat
  currentHeap : HprofHeapId
  stackTraceSerialNumber : Nat
  objectsInSegment : Nat
  directToDdms : Bool
  fileName : List Nat
  memFp : FILE
  fd : Int
  deriving DecidableEq, Repr

/-- Modelled from the spec: the failure taxonomy of section 7, which the `int` results of the
declared operations stand for (the header has no definition of any operation). -/
inductive hprof_failure where
  | AllocationFailure
  | IOFailure
  | ProtocolMisuseFailure
  deriving DecidableEq, Repr

/-! ## Big-endian encoding -/

/-- The `w` low-order bytes of `v`, most significant byte first. -/
def beBytes : Nat → Nat → List Nat
  | 0, _ => []
  | w + 1, v => (v / 256 ^ w) % 256 :: beBytes w v

/-- The number a byte sequence denotes when read most significant byte first. -/
def beValue (bs : List Nat) : Nat := bs.foldl (fun acc b => acc * 256 + b) 0

/-! ## Record buffer operations -/

/-- Modelled from the spec: the capacity a buffer is grown to when `nmore` more bytes do not
fit (section 4.1, "capacity grows geometrically"): the capacity doubles, or becomes what
the append needs when that is more. -/
def newAllocLen (rec : hprof_record_t) (nmore : Nat) : Nat :=
  max (2 * rec.allocLen) (rec.length + nmore)

/-- Modelled from the spec: making room for `nmore` more bytes (section 4.1). The header has no
definition of the buffer growth. Nothing happens when the bytes fit; otherwise the buffer is
reallocated, which fails exactly when the allocator `mem` refuses the new size. -/
def reserve (mem : Nat → Bool) (rec : hprof_record_t) (nmore : Nat) :
    Except hprof_failure hprof_record_t :=
  if rec.length + nmore ≤ rec.allocLen then .ok rec
  else if mem (newAllocLen rec nmore) then
    .ok { rec with
            body := rec.body ++ List.replicate (newAllocLen rec nmore - rec.allocLen) 0
            allocLen := newAllocLen rec nmore }
  else .error .AllocationFailure

/-- Modelled from the spec: appending raw bytes to the record body (section 4.1). The bytes are
stored at offset `length`, the `uint32_t length` advances by their number, and the record has
unflushed bytes once something was appended. -/
def appendBytes (mem : Nat → Bool) (rec : hprof_record_t) (bytes : List Nat) :
    Except hprof_failure hprof_record_t :=
  match reserve mem rec bytes.length with
  | .error e => .error e
  | .ok r =>
    .ok { r with
            body := r.body.take r.length ++ bytes ++ r.body.drop (r.length + bytes.length)
            length := (r.length + bytes.length) % 2 ^ 32
            dirty := r.dirty || decide (0 < bytes.length) }

/-- Modelled from the spec: `int hprofAddU1ToRecord(hprof_record_t *rec, uint8_t value)`, declared
in the header without a definition: append a 1-byte unsigned integer. -/
def hprofAddU1ToRecord (mem : Nat → Bool) (rec : hprof_record_t) (value : Nat) :
    Except hprof_failure hprof_record_t :=
  appendBytes mem rec (beBytes 1 value)

/-- Modelled from the spec: `int hprofAddU2ToRecord(hprof_record_t *rec, uint16_t value)`, declared
in the header without a definition: append a 2-byte unsigned integer, big-endian. -/
def hprofAddU2ToRecord (mem : Nat → Bool) (rec : hprof_record_t) (value : Nat) :
    Except hprof_failure hprof_record_t :=
  appendBytes mem rec (beBytes 2 value)

/-- Modelled from the spec: `int hprofAddU4ToRecord(hprof_record_t *rec, uint32_t value)`, declared
in the header without a definition: append a 4-byte unsigned integer, big-endian. -/
def hprofAddU4ToRecord (mem : Nat → Bool) (rec : hprof_record_t) (value : Nat) :
    Except hprof_failure hprof_record_t :=
  appendBytes mem rec (beBytes 4 value)

/-- Modelled from the spec: `int hprofAddU8ToRecord(hprof_record_t *rec, uint64_t value)`, declared
in the header without a definition: append an 8-byte unsigned integer, big-endian. -/
def hprofAddU8ToRecord (mem : Nat → Bool) (rec : hprof_record_t) (value : Nat) :
    Except hprof_failure hprof_record_t :=
  appendBytes mem rec (beBytes 8 value)

/-- The bytes of the first `numValues` elements of `values`, each as `w` big-endian bytes. -/
def beBytesList (w : Nat) (values : List Nat) (numValues : Nat) : List Nat :=
  ((values.take numValues).map (beBytes w)).flatten

/-- Modelled from the spec: `int hprofAddU4ListToRecord(hprof_record_t *rec, const uint32_t *values,
size_t numValues)`, declared in the header without a definition: append a list of `numValues`
4-byte values. -/
def hprofAddU4ListToRecord (mem : Nat → Bool) (rec : hprof_record_t) (values : List Nat)
    (numValues : Nat) : Except hprof_failure hprof_record_t :=
  appendBytes mem rec (beBytesList 4 values numValues)

/-- The macro `hprofAddIdToRecord(rec, id)`, which expands to
`hprofAddU4ToRecord((rec), (uint32_t)(id))`. -/
def hprofAddIdToRecord (mem : Nat → Bool) (rec : hprof_record_t) (id : Nat) :
    Except hprof_failure hprof_record_t :=
  hprofAddU4ToRecord mem rec (id % 2 ^ 32)

/-- The macro `hprofAddIdListToRecord(rec, values, numValues)`, which expands to
`hprofAddU4ListToRecord((rec), (const uint32_t *)(values), (numValues))`; the pointer
conversion leaves the array it points to as it is. -/
def hprofAddIdListToRecord (mem : Nat → Bool) (rec : hprof_record_t) (values : List Nat)
    (numValues : Nat) : Except hprof_failure hprof_record_t :=
  hprofAddU4ListToRecord mem rec values numValues

/-! ## Flushing -/

/-- The nine header bytes of a serialized record with the given tag, time and body size:
`uint8_t` TAG, `uint32_t` TIME, `uint32_t` LENGTH. -/
def recordHeader (tag time length : Nat) : List Nat :=
  [tag % 2 ^ 8] ++ beBytes 4 time ++ beBytes 4 length

/-- The serialized format of a record, as the comment on `hprof_record_t` gives it: TAG (one
byte), TIME (four bytes), LENGTH (four bytes, the number of bytes that follow this field and
belong to the record), then BODY (as many bytes as LENGTH says). -/
def serializedRecord (rec : hprof_record_t) : List Nat :=
  [rec.tag] ++ beBytes 4 rec.time ++ beBytes 4 rec.length ++ rec.contents

/-- Modelled from the spec: `int hprofFlushRecord(hprof_record_t *rec, FILE *fp)`, declared in the
header without a definition (section 4.2): write the header, whose length is computed from
the body size, then the body bytes, then clear dirty and length. A failing sink gives
`IOFailure`. -/
def hprofFlushRecord (rec : hprof_record_t) (fp : FILE) :
    Except hprof_failure (hprof_record_t × FILE) :=
  if fp.failing then .error .IOFailure
  else
    .ok ({ rec with dirty := false, length := 0 },
         { fp with
             data := fp.data ++ recordHeader rec.tag rec.time rec.contents.length
                       ++ rec.contents })

/-- Modelled from the spec: `int hprofFlushCurrentRecord(hprof_context_t *ctx)`, declared in the
header without a definition: flush the current record of the context to its sink. -/
def hprofFlushCurrentRecord (ctx : hprof_context_t) : Except hprof_failure hprof_context_t :=
  match hprofFlushRecord ctx.curRec ctx.memFp with
  | .error e => .error e
  | .ok (rec, fp) => .ok { ctx with curRec := rec, memFp := fp }

/-- Modelled from the spec: `int hprofSetGcScanState(hprof_context_t *ctx, hprof_heap_tag_t state,
uint32_t threadSerialNumber)`, declared in the header without a definition (section 4.4): a
pure state update that stores the state in the `uint8_t gcScanState` field and returns 0. -/
def hprofSetGcScanState (ctx : hprof_context_t) (state : hprof_heap_tag_t)
    (threadSerialNumber : Nat) : Int × hprof_context_t :=
  (0, { ctx with gcScanState := state.toU8
                 gcThreadSerialNumber := threadSerialNumber % 2 ^ 32 })

/-! ## String interning -/

/-- Modelled from the spec: the string table of section 4.3, content to id in insertion
order, and the next id to hand out (a `uint32_t`, as `hprof_string_id` is). -/
structure StringTable where
  entries : List (List Nat × Nat)
  nextId : Nat
  deriving DecidableEq, Repr

/-- Modelled from the spec: `int hprofStartup_String(void)`, declared in the header without a
definition: the table becomes initialized and empty. The spec leaves open which id is handed
out first, so it is the parameter `first`. -/
def hprofStartup_String (first : Nat) : Option StringTable :=
  some { entries := [], nextId := first % 2 ^ 32 }

/-- Modelled from the spec: `hprof_string_id hprofLookupStringId(...)`, declared in the header
without a definition (section 4.3, `lookupOrInsert`): return the existing id if the content
was seen before, by exact byte equality; else allocate the next id and record the entry.
A lookup against an uninitialized table (`none`) is a `ProtocolMisuseFailure`. The three
overloads differ in how the content is passed only. -/
def hprofLookupStringId (table : Option StringTable) (string : List Nat) :
    Except hprof_failure (Nat × Option StringTable) :=
  match table with
  | none => .error .ProtocolMisuseFailure
  | some t =>
    match t.entries.lookup string with
    | some id => .ok (id, some t)
    | none =>
      .ok (t.nextId,
           some { entries := t.entries ++ [(string, t.nextId)]
                  nextId := (t.nextId + 1) % 2 ^ 32 })

/-- The ids of a table were handed out in order from `first`, and `nextId` is the one after
them (in `uint32_t` arithmetic). -/
def StringTable.Inv (first : Nat) (t : StringTable) : Prop :=
  t.entries.map Prod.snd = (List.range t.entries.length).map (fun k => (first + k) % 2 ^ 32) ∧
    t.nextId = (first + t.entries.length) % 2 ^ 32

/-- The id a table holds for a content (0 when it holds none). -/
def StringTable.idOf (t : StringTable) (s : List Nat) : Nat := (t.entries.lookup s).getD 0

/-- The lookups of one dump, in order: the ids returned and the table afterwards. -/
def lookupAll : Option StringTable → List (List Nat) →
    Except hprof_failure (List Nat × Option StringTable)
  | table, [] => .ok ([], table)
  | table, s :: ss =>
    match hprofLookupStringId table s with
    | .error e => .error e
    | .ok (id, table1) =>
      match lookupAll table1 ss with
      | .error e => .error e
      | .ok (ids, table2) => .ok (id :: ids, table2)

/-! ## The tag enumerations -/

open hprof_tag_t hprof_heap_tag_t

/-- C4: the top-level tags have the listed values, `hprof_tag_t` has these fourteen members and
no other, and each value fits the one-byte tag field: it is below `2 ^ 8` and is the first
byte of the record header unchanged. -/
theorem hprof_tag_t_values :
    (HPROF_TAG_STRING.val = 0x01 ∧ HPROF_TAG_LOAD_CLASS.val = 0x02 ∧
      HPROF_TAG_UNLOAD_CLASS.val = 0x03 ∧ HPROF_TAG_STACK_FRAME.val = 0x04 ∧
      HPROF_TAG_STACK_TRACE.val = 0x05 ∧ HPROF_TAG_ALLOC_SITES.val = 0x06 ∧
      HPROF_TAG_HEAP_SUMMARY.val = 0x07 ∧ HPROF_TAG_START_THREAD.val = 0x0A ∧
      HPROF_TAG_END_THREAD.val = 0x0B ∧ HPROF_TAG_HEAP_DUMP.val = 0x0C ∧
      HPROF_TAG_HEAP_DUMP_SEGMENT.val = 0x1C ∧ HPROF_TAG_HEAP_DUMP_END.val = 0x2C ∧
      HPROF_TAG_CPU_SAMPLES.val = 0x0D ∧ HPROF_TAG_CONTROL_SETTINGS.val = 0x0E) ∧
    (∀ t : hprof_tag_t, t ∈ [HPROF_TAG_STRING, HPROF_TAG_LOAD_CLASS, HPROF_TAG_UNLOAD_CLASS,
      HPROF_TAG_STACK_FRAME, HPROF_TAG_STACK_TRACE, HPROF_TAG_ALLOC_SITES,
      HPROF_TAG_HEAP_SUMMARY, HPROF_TAG_START_THREAD, HPROF_TAG_END_THREAD,
      HPROF_TAG_HEAP_DUMP, HPROF_TAG_HEAP_DUMP_SEGMENT, HPROF_TAG_HEAP_DUMP_END,
      HPROF_TAG_CPU_SAMPLES, HPROF_TAG_CONTROL_SETTINGS]) ∧
    Fintype.card hprof_tag_t = 14 ∧
    (∀ t : hprof_tag_t, t.val < 2 ^ 8) ∧
    (∀ (t : hprof_tag_t) (time length : Nat),
      (recordHeader t.val time length).head? = some t.val) := by
  refine ⟨by decide, ?_, by decide, ?_, ?_⟩
  · intro t; cases t <;> decide
  · intro t; cases t <;> decide
  · intro t time length; cases t <;> rfl

/-- C5: the heap sub-record tags have the listed values, every value in `0x01..0x08` is the
value of a standard root tag, and every value in `0x89..0x8e` is the value of a root tag of
the platform (Android) group. -/
theorem hprof_heap_tag_t_values :
    (HPROF_CLASS_DUMP.val = 0x20 ∧ HPROF_INSTANCE_DUMP.val = 0x21 ∧
      HPROF_OBJECT_ARRAY_DUMP.val = 0x22 ∧ HPROF_PRIMITIVE_ARRAY_DUMP.val = 0x23 ∧
      HPROF_HEAP_DUMP_INFO.val = 0xfe ∧ HPROF_PRIMITIVE_ARRAY_NODATA_DUMP.val = 0xc3 ∧
      HPROF_ROOT_UNKNOWN.val = 0xFF) ∧
    (∀ v : Nat, 0x01 ≤ v → v ≤ 0x08 →
      ∃ t : hprof_heap_tag_t, t.isRoot = true ∧ t.isStandard = true ∧ t.val = v) ∧
    (∀ v : Nat, 0x89 ≤ v → v ≤ 0x8e →
      ∃ t : hprof_heap_tag_t, t.isRoot = true ∧ t.isStandard = false ∧ t.val = v) := by
  refine ⟨by decide, ?_, ?_⟩
  · intro v h1 h2
    interval_cases v <;> decide
  · intro v h1 h2
    interval_cases v <;> decide

/-- Witness for C5 at the values `0x03` and `0x8a`. -/
theorem hprof_heap_tag_t_values_witness :
    (∃ t : hprof_heap_tag_t, t.isRoot = true ∧ t.isStandard = true ∧ t.val = 0x03) ∧
    (∃ t : hprof_heap_tag_t, t.isRoot = true ∧ t.isStandard = false ∧ t.val = 0x8a) :=
  ⟨hprof_heap_tag_t_values.2.1 0x03 (by decide) (by decide),
   hprof_heap_tag_t_values.2.2 0x8a (by decide) (by decide)⟩

/-- C7, counterexample: `HPROF_ROOT_FINALIZING` is a `HPROF_ROOT_*` member of
`hprof_heap_tag_t`, its value `0x8a` lies in `0x89..0x8e`, and it is none of the thirteen
root kinds the spec names; no named kind has the value `0x8a`. -/
theorem root_finalizing_not_a_spec_kind :
    HPROF_ROOT_FINALIZING.isRoot = true ∧ HPROF_ROOT_FINALIZING.val = 0x8a ∧
    0x89 ≤ HPROF_ROOT_FINALIZING.val ∧ HPROF_ROOT_FINALIZING.val ≤ 0x8e ∧
    HPROF_ROOT_FINALIZING ∉ specRootKinds ∧
    ¬ ∃ t ∈ specRootKinds, t.val = 0x8a := by
  decide

/-- C7, amended: the thirteen kinds the spec names are `HPROF_ROOT_*` members, none of them
obsolete; every `HPROF_ROOT_*` member is one of the thirteen or one of the two obsolete
members `HPROF_ROOT_FINALIZING` (`0x8a`) and `HPROF_ROOT_REFERENCE_CLEANUP` (`0x8c`); so
every tag value in `0x01..0x08`, `0x89`, `0x8b`, `0x8d`, `0x8e` and `0xFF` is the value of one
of the thirteen, and a tag with one of these values is one of the thirteen. -/
theorem root_kinds_thirteen_and_obsolete :
    specRootKinds.length = 13 ∧ specRootKinds.Nodup ∧
    (∀ t ∈ specRootKinds, t.isRoot = true ∧ t.isObsolete = false) ∧
    (∀ t : hprof_heap_tag_t, t.isRoot = true →
      t ∈ specRootKinds ∨ t = HPROF_ROOT_FINALIZING ∨ t = HPROF_ROOT_REFERENCE_CLEANUP) ∧
    (HPROF_ROOT_FINALIZING.isObsolete = true ∧ HPROF_ROOT_FINALIZING.val = 0x8a ∧
      HPROF_ROOT_REFERENCE_CLEANUP.isObsolete = true ∧
      HPROF_ROOT_REFERENCE_CLEANUP.val = 0x8c) ∧
    (∀ v : Nat, (0x01 ≤ v ∧ v ≤ 0x08) ∨ v ∈ [0x89, 0x8b, 0x8d, 0x8e] ∨ v = 0xFF →
      (∃ t ∈ specRootKinds, t.val = v) ∧
      ∀ t : hprof_heap_tag_t, t.val = v → t ∈ specRootKinds) := by
  refine ⟨by decide, by decide, by decide, by decide, by decide, ?_⟩
  intro v hv
  have hv8 : v < 256 := by
    rcases hv with h | h | h
    · omega
    · simp at h; omega
    · omega
  interval_cases v <;> first | (exfalso; revert hv; decide) | decide

/-- Witness for C7 amended: the member `HPROF_ROOT_DEBUGGER` and the value `0x8b`. -/
theorem root_kinds_thirteen_and_obsolete_witness :
    (hprof_heap_tag_t.HPROF_ROOT_DEBUGGER ∈ specRootKinds ∨
      hprof_heap_tag_t.HPROF_ROOT_DEBUGGER = hprof_heap_tag_t.HPROF_ROOT_FINALIZING ∨
      hprof_heap_tag_t.HPROF_ROOT_DEBUGGER = hprof_heap_tag_t.HPROF_ROOT_REFERENCE_CLEANUP) ∧
    ((∃ t ∈ specRootKinds, t.val = 0x8b) ∧
      ∀ t : hprof_heap_tag_t, t.val = 0x8b → t ∈ specRootKinds) :=
  ⟨root_kinds_thirteen_and_obsolete.2.2.2.1 .HPROF_ROOT_DEBUGGER (by decide),
   root_kinds_thirteen_and_obsolete.2.2.2.2.2 0x8b (by decide)⟩

/-- C10: the members of `hprof_heap_tag_t`, the obsolete ones included, have pairwise
distinct values, each at most `0xFF`; the conversion to a byte keeps the value and is
injective, and so is the `gcScanState` that `hprofSetGcScanState` stores. -/
theorem hprof_heap_tag_t_byte_injective :
    (∀ t1 t2 : hprof_heap_tag_t, t1.val = t2.val → t1 = t2) ∧
    (hprof_heap_tag_t.all.map hprof_heap_tag_t.val).Nodup ∧
    (∀ t : hprof_heap_tag_t, t ∈ hprof_heap_tag_t.all) ∧
    (∀ t : hprof_heap_tag_t, t.val ≤ 0xFF ∧ t.toU8 = t.val) ∧
    (∀ t1 t2 : hprof_heap_tag_t, t1.toU8 = t2.toU8 → t1 = t2) ∧
    (∀ (ctx : hprof_context_t) (t : hprof_heap_tag_t) (n : Nat),
      (hprofSetGcScanState ctx t n).2.gcScanState = t.val) ∧
    (∀ (ctx1 ctx2 : hprof_context_t) (t1 t2 : hprof_heap_tag_t) (n1 n2 : Nat),
      (hprofSetGcScanState ctx1 t1 n1).2.gcScanState =
        (hprofSetGcScanState ctx2 t2 n2).2.gcScanState → t1 = t2) := by
  have hval : ∀ t : hprof_heap_tag_t, t.val ≤ 0xFF ∧ t.toU8 = t.val := by decide
  have hinj : ∀ t1 t2 : hprof_heap_tag_t, t1.val = t2.val → t1 = t2 := by decide
  refine ⟨hinj, by decide, by decide, hval, ?_, ?_, ?_⟩
  · intro t1 t2 h
    rw [(hval t1).2, (hval t2).2] at h
    exact hinj t1 t2 h
  · intro ctx t n
    exact (hval t).2
  · intro ctx1 ctx2 t1 t2 n1 n2 h
    have h1 : t1.toU8 = t2.toU8 := h
    rw [(hval t1).2, (hval t2).2] at h1
    exact hinj t1 t2 h1

/-- Witness for C10 at `HPROF_ROOT_FINALIZING`: a tag whose byte is `0x8a` is that tag. -/
theorem hprof_heap_tag_t_byte_injective_witness :
    hprof_heap_tag_t.HPROF_ROOT_FINALIZING.toU8 = 0x8a ∧
    hprof_heap_tag_t.HPROF_ROOT_FINALIZING = hprof_heap_tag_t.HPROF_ROOT_FINALIZING :=
  ⟨by decide,
   hprof_heap_tag_t_byte_injective.2.2.2.2.1 .HPROF_ROOT_FINALIZING .HPROF_ROOT_FINALIZING
     (by decide)⟩

/-! ## The site-specific error code -/

theorem or_ne_zero_of_right (x l : Nat) (h : l ≠ 0) : x ||| l ≠ 0 := by
  intro h0
  apply h
  apply Nat.eq_of_testBit_eq
  intro i
  have hi := congrArg (fun n => n.testBit i) h0
  simp [Nat.testBit_or] at hi
  simp [hi.2]

theorem UNIQUE_ERROR_masked_lt (w func line : Nat) : UNIQUE_ERROR_masked w func line < 2 ^ 31 :=
  Nat.and_lt_two_pow _ (by norm_num)

theorem UNIQUE_ERROR_masked_eq_mod (w func line : Nat) :
    UNIQUE_ERROR_masked w func line
      = (((func % 2 ^ w) <<< 16) % 2 ^ w ||| line % 2 ^ w) % 2 ^ 31 := by
  unfold UNIQUE_ERROR_masked
  have h : (0x7fffffff : Nat) = 2 ^ 31 - 1 := by norm_num
  rw [h, Nat.and_pow_two_sub_one_eq_mod]

/-- The masked operand is not zero when the line number is between 1 and `2 ^ 31 - 1`. -/
theorem UNIQUE_ERROR_masked_pos (w func line : Nat) (hw : w = 32 ∨ w = 64) (h1 : 1 ≤ line)
    (h2 : line ≤ 2 ^ 31 - 1) : 1 ≤ UNIQUE_ERROR_masked w func line := by
  have hl : line % 2 ^ w = line := by
    apply Nat.mod_eq_of_lt
    rcases hw with rfl | rfl <;> omega
  have hM : (0x7fffffff : Nat) = 2 ^ 31 - 1 := by norm_num
  have hlm : (0x7fffffff : Nat) &&& line = line := by
    rw [Nat.and_comm, hM, Nat.and_pow_two_sub_one_eq_mod]
    apply Nat.mod_eq_of_lt
    omega
  have hne : UNIQUE_ERROR_masked w func line ≠ 0 := by
    unfold UNIQUE_ERROR_masked
    rw [hl, Nat.and_comm, Nat.and_or_distrib_left, hlm]
    exact or_ne_zero_of_right _ _ (by omega)
  omega

/-- For 32-bit and 64-bit pointers the `int` value of `UNIQUE_ERROR()` is the negated operand. -/
theorem UNIQUE_ERROR_eq_neg (w func line : Nat) (hw : w = 32 ∨ w = 64) :
    UNIQUE_ERROR w func line = -((UNIQUE_ERROR_masked w func line : Nat) : Int) := by
  have hlt := UNIQUE_ERROR_masked_lt w func line
  unfold UNIQUE_ERROR UNIQUE_ERROR_uintptr toInt32
  generalize UNIQUE_ERROR_masked w func line = m at hlt ⊢
  rcases hw with rfl | rfl
  · norm_num at hlt ⊢
    split_ifs with h <;> omega
  · norm_num at hlt ⊢
    split_ifs with h <;> omega

/-- With a line number below `2 ^ 16` the operand is the low 15 bits of the address followed by
the 16 bits of the line number. -/
theorem UNIQUE_ERROR_masked_small_line (w func line : Nat) (hw : w = 32 ∨ w = 64)
    (hline : line < 2 ^ 16) :
    UNIQUE_ERROR_masked w func line = (func % 2 ^ 15) * 2 ^ 16 + line := by
  rw [UNIQUE_ERROR_masked_eq_mod, Nat.shiftLeft_eq]
  have hl : line % 2 ^ w = line := by
    apply Nat.mod_eq_of_lt
    rcases hw with rfl | rfl <;> omega
  rw [hl]
  obtain ⟨q, hq⟩ : ∃ q, (func % 2 ^ w * 2 ^ 16) % 2 ^ w = 2 ^ 16 * q ∧ q % 2 ^ 15 = func % 2 ^ 15 := by
    rcases hw with rfl | rfl
    · exact ⟨(func % 2 ^ 32) % 2 ^ 16, by omega, by omega⟩
    · exact ⟨(func % 2 ^ 64) % 2 ^ 48, by omega, by omega⟩
  rw [hq.1, ← Nat.mul_add_lt_is_or hline, ← hq.2]
  norm_num at hline ⊢
  omega

/-- C9: for 32-bit and 64-bit pointers and a line number from 1 to `2 ^ 31 - 1`, the `int` value
of `UNIQUE_ERROR()` lies between `-(2 ^ 31 - 1)` and `-1`: it is neither 0 nor positive. -/
theorem UNIQUE_ERROR_range (w func line : Nat) (hw : w = 32 ∨ w = 64) (h1 : 1 ≤ line)
    (h2 : line ≤ 2 ^ 31 - 1) :
    -(2 ^ 31 - 1) ≤ UNIQUE_ERROR w func line ∧ UNIQUE_ERROR w func line ≤ -1 ∧
      UNIQUE_ERROR w func line ≠ 0 := by
  have hlt := UNIQUE_ERROR_masked_lt w func line
  have hpos := UNIQUE_ERROR_masked_pos w func line hw h1 h2
  rw [UNIQUE_ERROR_eq_neg w func line hw]
  norm_num at hlt ⊢
  omega

/-- Witness for C9: a 64-bit address and line 183. -/
theorem UNIQUE_ERROR_range_witness :
    -(2 ^ 31 - 1) ≤ UNIQUE_ERROR 64 0x7f3a15c0d2e8 183 ∧ UNIQUE_ERROR 64 0x7f3a15c0d2e8 183 ≤ -1 ∧
      UNIQUE_ERROR 64 0x7f3a15c0d2e8 183 ≠ 0 :=
  UNIQUE_ERROR_range 64 0x7f3a15c0d2e8 183 (Or.inr rfl) (by decide) (by decide)

/-- C8, counterexample: two call sites with different addresses (`0x08048000` and `0x08050000`,
equal in their low 15 bits) and the same line get the same code, with 32-bit and with 64-bit
pointers; and in one function (address `0x08048001`) the lines 7 and 65543 get the same
code. -/
theorem UNIQUE_ERROR_collision :
    ((0x08048000, 120) : Nat × Nat) ≠ (0x08050000, 120) ∧
    UNIQUE_ERROR 32 0x08048000 120 = UNIQUE_ERROR 32 0x08050000 120 ∧
    UNIQUE_ERROR 64 0x08048000 120 = UNIQUE_ERROR 64 0x08050000 120 ∧
    ((0x08048001, 7) : Nat × Nat) ≠ (0x08048001, 65543) ∧
    UNIQUE_ERROR 32 0x08048001 7 = UNIQUE_ERROR 32 0x08048001 65543 ∧
    UNIQUE_ERROR 64 0x08048001 7 = UNIQUE_ERROR 64 0x08048001 65543 := by
  decide

/-- C8, amended: for 32-bit and 64-bit pointers and line numbers below `2 ^ 16`, two call sites
get different codes exactly when they differ in the pair (address modulo `2 ^ 15`, line). -/
theorem UNIQUE_ERROR_distinguishes (w func1 line1 func2 line2 : Nat) (hw : w = 32 ∨ w = 64)
    (hl1 : line1 < 2 ^ 16) (hl2 : line2 < 2 ^ 16) :
    UNIQUE_ERROR w func1 line1 ≠ UNIQUE_ERROR w func2 line2 ↔
      (func1 % 2 ^ 15, line1) ≠ (func2 % 2 ^ 15, line2) := by
  rw [UNIQUE_ERROR_eq_neg w func1 line1 hw, UNIQUE_ERROR_eq_neg w func2 line2 hw,
    UNIQUE_ERROR_masked_small_line w func1 line1 hw hl1,
    UNIQUE_ERROR_masked_small_line w func2 line2 hw hl2]
  simp only [ne_eq, Prod.mk.injEq, neg_inj, Nat.cast_inj]
  norm_num at hl1 hl2 ⊢
  constructor
  · intro h hc hc2
    apply h
    rw [hc, hc2]
  · intro h hc
    have hf : func1 % 32768 = func2 % 32768 := by omega
    exact h hf (by omega)

/-- Witness for C8 amended: two functions at the same line, 64-bit pointers. -/
theorem UNIQUE_ERROR_distinguishes_witness :
    UNIQUE_ERROR 64 0x7f3a15c0d2e8 183 ≠ UNIQUE_ERROR 64 0x7f3a15c0d31c 183 ↔
      (0x7f3a15c0d2e8 % 2 ^ 15, 183) ≠ (0x7f3a15c0d31c % 2 ^ 15, 183) :=
  UNIQUE_ERROR_distinguishes 64 0x7f3a15c0d2e8 183 0x7f3a15c0d31c 183 (Or.inr rfl)
    (by decide) (by decide)

/-! ## Big-endian encoding -/

theorem beBytes_length (w v : Nat) : (beBytes w v).length = w := by
  induction w with
  | zero => rfl
  | succ w ih => simp [beBytes, ih]

theorem beBytes_lt (w v : Nat) : ∀ b ∈ beBytes w v, b < 2 ^ 8 := by
  induction w with
  | zero => simp [beBytes]
  | succ w ih =>
    intro b hb
    simp only [beBytes, List.mem_cons] at hb
    rcases hb with rfl | hb
    · exact Nat.mod_lt _ (by norm_num)
    · exact ih b hb

theorem foldl_be (bs : List Nat) (acc : Nat) :
    bs.foldl (fun a b => a * 256 + b) acc = acc * 256 ^ bs.length + beValue bs := by
  induction bs generalizing acc with
  | nil => simp [beValue]
  | cons b bs ih =>
    simp only [List.foldl_cons, List.length_cons, beValue]
    rw [ih (acc * 256 + b), ih (0 * 256 + b)]
    simp only [beValue]
    ring

theorem beValue_cons (b : Nat) (bs : List Nat) :
    beValue (b :: bs) = b * 256 ^ bs.length + beValue bs := by
  unfold beValue
  rw [List.foldl_cons, foldl_be]
  simp [beValue]

/-- Reading the `w` bytes of `beBytes w v` most significant byte first gives `v` back
(modulo `256 ^ w`): the encoding is big-endian. -/
theorem beValue_beBytes (w v : Nat) : beValue (beBytes w v) = v % 256 ^ w := by
  induction w with
  | zero => simp [beBytes, beValue, Nat.mod_one]
  | succ w ih =>
    rw [beBytes, beValue_cons, beBytes_length, ih, Nat.mod_pow_succ]
    ring

/-! ## Appending to the record body -/

theorem contents_length (rec : hprof_record_t) (h1 : rec.body.length = rec.allocLen)
    (h2 : rec.length ≤ rec.allocLen) : rec.contents.length = rec.length := by
  simp [hprof_record_t.contents, List.length_take]
  omega

/-- An append that fits the buffer, or whose growth the allocator grants, succeeds: the bytes
go to the end of the body, the bytes before stay, the length grows by their number. -/
theorem appendBytes_ok (mem : Nat → Bool) (rec : hprof_record_t) (bytes : List Nat)
    (h1 : rec.body.length = rec.allocLen) (h2 : rec.length ≤ rec.allocLen)
    (hlen : rec.length + bytes.length < 2 ^ 32)
    (hmem : rec.allocLen < rec.length + bytes.length →
      mem (newAllocLen rec bytes.length) = true) :
    ∃ r, appendBytes mem rec bytes = .ok r ∧ r.contents = rec.contents ++ bytes ∧
      r.length = rec.length + bytes.length ∧ r.tag = rec.tag ∧ r.time = rec.time ∧
      r.body.length = r.allocLen ∧ r.length ≤ r.allocLen ∧
      (∀ b ∈ r.body, b ∈ rec.body ∨ b ∈ bytes ∨ b = 0) := by
  have hcl := contents_length rec h1 h2
  have hmod : (rec.length + bytes.length) % 2 ^ 32 = rec.length + bytes.length :=
    Nat.mod_eq_of_lt hlen
  by_cases hfit : rec.length + bytes.length ≤ rec.allocLen
  · refine ⟨{ rec with
        body := rec.body.take rec.length ++ bytes ++ rec.body.drop (rec.length + bytes.length)
        length := (rec.length + bytes.length) % 2 ^ 32
        dirty := rec.dirty || decide (0 < bytes.length) },
      by simp only [appendBytes, reserve, if_pos hfit], ?_, hmod, rfl, rfl, ?_, ?_, ?_⟩
    · simp only [hprof_record_t.contents, hmod]
      apply List.take_left'
      simp only [hprof_record_t.contents] at hcl
      rw [List.length_append, hcl]
    · simp only [List.length_append, List.length_take, List.length_drop]
      omega
    · simp only [hmod]; exact hfit
    · intro b hb
      simp only [List.mem_append] at hb
      rcases hb with (hb | hb) | hb
      · exact Or.inl (List.mem_of_mem_take hb)
      · exact Or.inr (Or.inl hb)
      · exact Or.inl (List.mem_of_mem_drop hb)
  · have hgrant := hmem (by omega)
    have hnew : rec.length + bytes.length ≤ newAllocLen rec bytes.length := by
      unfold newAllocLen; omega
    refine ⟨{ rec with
        body := (rec.body ++ List.replicate (newAllocLen rec bytes.length - rec.allocLen) 0).take
            rec.length ++ bytes ++
          (rec.body ++ List.replicate (newAllocLen rec bytes.length - rec.allocLen) 0).drop
            (rec.length + bytes.length)
        allocLen := newAllocLen rec bytes.length
        length := (rec.length + bytes.length) % 2 ^ 32
        dirty := rec.dirty || decide (0 < bytes.length) },
      by simp only [appendBytes, reserve, if_neg hfit, hgrant, if_true],
      ?_, hmod, rfl, rfl, ?_, ?_, ?_⟩
    · simp only [hprof_record_t.contents, hmod]
      have htake : List.take rec.length
          (rec.body ++ List.replicate (newAllocLen rec bytes.length - rec.allocLen) 0)
          = List.take rec.length rec.body :=
        List.take_append_of_le_length (by omega)
      rw [htake]
      apply List.take_left'
      simp only [hprof_record_t.contents] at hcl
      rw [List.length_append, hcl]
    · simp only [List.length_append, List.length_take, List.length_drop,
        List.length_replicate]
      omega
    · simp only [hmod]; exact hnew
    · intro b hb
      simp only [List.mem_append] at hb
      rcases hb with (hb | hb) | hb
      · have hb1 := List.mem_of_mem_take hb
        simp only [List.mem_append, List.mem_replicate] at hb1
        rcases hb1 with hb1 | hb1
        · exact Or.inl hb1
        · exact Or.inr (Or.inr hb1.2)
      · exact Or.inr (Or.inl hb)
      · have hb1 := List.mem_of_mem_drop hb
        simp only [List.mem_append, List.mem_replicate] at hb1
        rcases hb1 with hb1 | hb1
        · exact Or.inl hb1
        · exact Or.inr (Or.inr hb1.2)

/-- An append that does not fit and whose growth the allocator refuses is an
`AllocationFailure`. -/
theorem appendBytes_refused (mem : Nat → Bool) (rec : hprof_record_t) (bytes : List Nat)
    (hfit : rec.allocLen < rec.length + bytes.length)
    (hmem : mem (newAllocLen rec bytes.length) = false) :
    appendBytes mem rec bytes = .error .AllocationFailure := by
  have hnot : ¬ rec.length + bytes.length ≤ rec.allocLen := by omega
  simp [appendBytes, reserve, hnot, hmem]

/-- A successful append of bytes keeps the record well-formed. -/
theorem appendBytes_WF (mem : Nat → Bool) (rec : hprof_record_t) (bytes : List Nat)
    (hwf : rec.WF) (hbytes : ∀ b ∈ bytes, b < 2 ^ 8)
    (hlen : rec.length + bytes.length < 2 ^ 32)
    (hmem : rec.allocLen < rec.length + bytes.length →
      mem (newAllocLen rec bytes.length) = true) :
    ∃ r, appendBytes mem rec bytes = .ok r ∧ r.WF := by
  obtain ⟨h1, h2, h3, h4, h5, h6⟩ := hwf
  obtain ⟨r, hr, -, hl, ht, hti, hb1, hb2, hb3⟩ := appendBytes_ok mem rec bytes h1 h2 hlen hmem
  refine ⟨r, hr, hb1, hb2, by rw [hti]; exact h3, by rw [hl]; exact hlen, by rw [ht]; exact h5, ?_⟩
  intro b hb
  rcases hb3 b hb with h | h | h
  · exact h6 b h
  · exact hbytes b h
  · rw [h]; norm_num

theorem beBytes_mod (w m v : Nat) (h : w ≤ m) : beBytes w (v % 256 ^ m) = beBytes w v := by
  induction w with
  | zero => rfl
  | succ w ih =>
    have hsplit : 256 ^ m = 256 ^ w * 256 ^ (m - w) := by
      rw [← pow_add]; congr 1; omega
    have hdvd : 256 ∣ 256 ^ (m - w) := dvd_pow_self 256 (by omega)
    simp only [beBytes]
    rw [ih (by omega)]
    congr 1
    rw [hsplit, Nat.mod_mul_right_div_self, Nat.mod_mod_of_dvd _ hdvd]

/-- Appending the `w` big-endian bytes of a value: the common part of the `hprofAddU*ToRecord`
operations. -/
theorem appendBytes_beBytes (mem : Nat → Bool) (rec : hprof_record_t) (w value : Nat)
    (hwf : rec.WF) (hlen : rec.length + w < 2 ^ 32)
    (hmem : rec.allocLen < rec.length + w → mem (newAllocLen rec w) = true) :
    ∃ r, appendBytes mem rec (beBytes w value) = .ok r ∧
      r.contents = rec.contents ++ beBytes w value ∧ r.length = rec.length + w ∧
      r.contents.length = rec.contents.length + w ∧ r.tag = rec.tag ∧ r.time = rec.time ∧
      r.WF := by
  have hbl := beBytes_length w value
  obtain ⟨r, hr, hwf'⟩ := appendBytes_WF mem rec (beBytes w value) hwf (beBytes_lt w value)
    (by rw [hbl]; exact hlen) (by rw [hbl]; exact hmem)
  obtain ⟨h1, h2, -⟩ := hwf
  obtain ⟨r', hr', hc, hl, ht, hti, -⟩ := appendBytes_ok mem rec (beBytes w value) h1 h2
    (by rw [hbl]; exact hlen) (by rw [hbl]; exact hmem)
  have hrr : r' = r := by
    rw [hr] at hr'
    exact (Except.ok.inj hr').symm
  subst hrr
  refine ⟨r', hr, hc, by rw [hl, hbl], ?_, ht, hti, hwf'⟩
  rw [hc, List.length_append, hbl]

/-! ## The record buffer operations -/

/-- C2: on a well-formed record whose length stays a `uint32_t`, with an allocator that grants
the growth an append asks for, `hprofAddU1ToRecord`, `hprofAddU2ToRecord`,
`hprofAddU4ToRecord` and `hprofAddU8ToRecord` succeed and append exactly 1, 2, 4 and 8 bytes
to the end of the body, most significant byte first; the bytes already in the body stay, and
the length grows by exactly the width. The last part says that the bytes, read most
significant byte first, are the value (of that width). -/
theorem hprofAddU_appends_big_endian (mem : Nat → Bool) (rec : hprof_record_t) (value : Nat)
    (hwf : rec.WF)
    (hmem : ∀ n, rec.allocLen < rec.length + n → mem (newAllocLen rec n) = true) :
    (rec.length + 1 < 2 ^ 32 →
      ∃ r, hprofAddU1ToRecord mem rec value = .ok r ∧
        r.contents = rec.contents ++ [value % 256] ∧
        r.length = rec.length + 1 ∧ r.contents.length = rec.contents.length + 1 ∧ r.WF) ∧
    (rec.length + 2 < 2 ^ 32 →
      ∃ r, hprofAddU2ToRecord mem rec value = .ok r ∧
        r.contents = rec.contents ++ [value / 256 % 256, value % 256] ∧
        r.length = rec.length + 2 ∧ r.contents.length = rec.contents.length + 2 ∧ r.WF) ∧
    (rec.length + 4 < 2 ^ 32 →
      ∃ r, hprofAddU4ToRecord mem rec value = .ok r ∧
        r.contents = rec.contents ++
          [value / 256 ^ 3 % 256, value / 256 ^ 2 % 256, value / 256 % 256, value % 256] ∧
        r.length = rec.length + 4 ∧ r.contents.length = rec.contents.length + 4 ∧ r.WF) ∧
    (rec.length + 8 < 2 ^ 32 →
      ∃ r, hprofAddU8ToRecord mem rec value = .ok r ∧
        r.contents = rec.contents ++
          [value / 256 ^ 7 % 256, value / 256 ^ 6 % 256, value / 256 ^ 5 % 256,
           value / 256 ^ 4 % 256, value / 256 ^ 3 % 256, value / 256 ^ 2 % 256,
           value / 256 % 256, value % 256] ∧
        r.length = rec.length + 8 ∧ r.contents.length = rec.contents.length + 8 ∧ r.WF) ∧
    (beValue [value % 256] = value % 2 ^ 8 ∧
      beValue [value / 256 % 256, value % 256] = value % 2 ^ 16 ∧
      beValue [value / 256 ^ 3 % 256, value / 256 ^ 2 % 256, value / 256 % 256, value % 256]
        = value % 2 ^ 32 ∧
      beValue [value / 256 ^ 7 % 256, value / 256 ^ 6 % 256, value / 256 ^ 5 % 256,
           value / 256 ^ 4 % 256, value / 256 ^ 3 % 256, value / 256 ^ 2 % 256,
           value / 256 % 256, value % 256] = value % 2 ^ 64) := by
  have e1 : beBytes 1 value = [value % 256] := by simp [beBytes]
  have e2 : beBytes 2 value = [value / 256 % 256, value % 256] := by simp [beBytes]
  have e4 : beBytes 4 value =
      [value / 256 ^ 3 % 256, value / 256 ^ 2 % 256, value / 256 % 256, value % 256] := by
    simp [beBytes]
  have e8 : beBytes 8 value =
      [value / 256 ^ 7 % 256, value / 256 ^ 6 % 256, value / 256 ^ 5 % 256,
       value / 256 ^ 4 % 256, value / 256 ^ 3 % 256, value / 256 ^ 2 % 256,
       value / 256 % 256, value % 256] := by
    simp [beBytes]
  refine ⟨?_, ?_, ?_, ?_, ?_, ?_, ?_, ?_⟩
  · intro hlen
    obtain ⟨r, hr, hc, hl, hcl, -, -, hw⟩ :=
      appendBytes_beBytes mem rec 1 value hwf hlen (hmem 1)
    exact ⟨r, hr, by rw [hc, e1], hl, hcl, hw⟩
  · intro hlen
    obtain ⟨r, hr, hc, hl, hcl, -, -, hw⟩ :=
      appendBytes_beBytes mem rec 2 value hwf hlen (hmem 2)
    exact ⟨r, hr, by rw [hc, e2], hl, hcl, hw⟩
  · intro hlen
    obtain ⟨r, hr, hc, hl, hcl, -, -, hw⟩ :=
      appendBytes_beBytes mem rec 4 value hwf hlen (hmem 4)
    exact ⟨r, hr, by rw [hc, e4], hl, hcl, hw⟩
  · intro hlen
    obtain ⟨r, hr, hc, hl, hcl, -, -, hw⟩ :=
      appendBytes_beBytes mem rec 8 value hwf hlen (hmem 8)
    exact ⟨r, hr, by rw [hc, e8], hl, hcl, hw⟩
  · rw [← e1, beValue_beBytes]; norm_num
  · rw [← e2, beValue_beBytes]; norm_num
  · rw [← e4, beValue_beBytes]; norm_num
  · rw [← e8, beValue_beBytes]; norm_num

/-- Witness for C2: appending the `uint32_t` `0x01020304` to `sampleRecord`, whose buffer has
to grow for it, with an allocator that grants every request. -/
theorem hprofAddU_appends_big_endian_witness :
    sampleRecord.WF ∧
    ∃ r, hprofAddU4ToRecord (fun _ => true) sampleRecord 0x01020304 = .ok r ∧
      r.contents = sampleRecord.contents ++ [0x01, 0x02, 0x03, 0x04] ∧
      r.length = sampleRecord.length + 4 ∧
      r.contents.length = sampleRecord.contents.length + 4 ∧ r.WF :=
  ⟨by decide,
   (hprofAddU_appends_big_endian (fun _ => true) sampleRecord 0x01020304 (by decide)
     (fun _ _ => rfl)).2.2.1 (by decide)⟩

/-- The layout of the serialized format of a well-formed record: one tag byte, four bytes of
time, four bytes of length, then the body; the length field, read big-endian, is the number of
bytes after it. -/
theorem serializedRecord_layout (rec : hprof_record_t) (hwf : rec.WF) :
    (serializedRecord rec).take 1 = [rec.tag] ∧
    ((serializedRecord rec).drop 1).take 4 = beBytes 4 rec.time ∧
    ((serializedRecord rec).drop 5).take 4 = beBytes 4 rec.length ∧
    (serializedRecord rec).drop 9 = rec.contents ∧
    beValue (((serializedRecord rec).drop 1).take 4) = rec.time ∧
    beValue (((serializedRecord rec).drop 5).take 4) = ((serializedRecord rec).drop 9).length ∧
    (serializedRecord rec).length = 9 + beValue (((serializedRecord rec).drop 5).take 4) ∧
    (serializedRecord rec).length = 9 + rec.length := by
  obtain ⟨h1, h2, h3, h4, -, -⟩ := hwf
  have hcl := contents_length rec h1 h2
  have ht : beValue (beBytes 4 rec.time) = rec.time := by
    rw [beValue_beBytes]; exact Nat.mod_eq_of_lt (by norm_num at h3 ⊢; exact h3)
  have hl : beValue (beBytes 4 rec.length) = rec.length := by
    rw [beValue_beBytes]; exact Nat.mod_eq_of_lt (by norm_num at h4 ⊢; exact h4)
  have e1 : (serializedRecord rec).take 1 = [rec.tag] := by
    simp [serializedRecord]
  have e2 : ((serializedRecord rec).drop 1).take 4 = beBytes 4 rec.time := by
    simp [serializedRecord, beBytes]
  have e3 : ((serializedRecord rec).drop 5).take 4 = beBytes 4 rec.length := by
    simp [serializedRecord, beBytes]
  have e4 : (serializedRecord rec).drop 9 = rec.contents := by
    simp [serializedRecord, beBytes]
  have e5 : (serializedRecord rec).length = 9 + rec.length := by
    simp [serializedRecord, beBytes_length, hcl]; omega
  refine ⟨e1, e2, e3, e4, ?_, ?_, ?_, e5⟩
  · rw [e2, ht]
  · rw [e3, e4, hl, hcl]
  · rw [e3, hl, e5]

/-- C1: flushing a well-formed record to a working sink succeeds and writes, in this order,
the tag (1 byte), the time (4 bytes, big-endian), the length (4 bytes, big-endian) and the
body; the value of the length field is the number of body bytes that follow it, so the
serialized record is 9 + length bytes long. Afterwards dirty and length are cleared.
`hprofFlushCurrentRecord` writes the same for the current record of a context. -/
theorem hprofFlushRecord_writes_serialized (rec : hprof_record_t) (fp : FILE) (hwf : rec.WF)
    (hfp : fp.failing = false) :
    ∃ rec1 fp1, hprofFlushRecord rec fp = .ok (rec1, fp1) ∧
      fp1.data = fp.data ++ serializedRecord rec ∧
      (serializedRecord rec).take 1 = [rec.tag] ∧
      ((serializedRecord rec).drop 1).take 4 = beBytes 4 rec.time ∧
      ((serializedRecord rec).drop 5).take 4 = beBytes 4 rec.length ∧
      (serializedRecord rec).drop 9 = rec.contents ∧
      beValue (((serializedRecord rec).drop 1).take 4) = rec.time ∧
      beValue (((serializedRecord rec).drop 5).take 4) = ((serializedRecord rec).drop 9).length ∧
      (serializedRecord rec).length = 9 + beValue (((serializedRecord rec).drop 5).take 4) ∧
      (serializedRecord rec).length = 9 + rec.length ∧
      rec1.dirty = false ∧ rec1.length = 0 ∧
      ∀ ctx : hprof_context_t, ctx.curRec = rec → ctx.memFp = fp →
        ∃ ctx1, hprofFlushCurrentRecord ctx = .ok ctx1 ∧
          ctx1.memFp.data = fp.data ++ serializedRecord rec ∧ ctx1.curRec = rec1 := by
  have hlay := serializedRecord_layout rec hwf
  obtain ⟨h1, h2, -, -, h5, -⟩ := hwf
  have hcl := contents_length rec h1 h2
  have htag : rec.tag % 2 ^ 8 = rec.tag := Nat.mod_eq_of_lt h5
  have hser : recordHeader rec.tag rec.time rec.contents.length ++ rec.contents
      = serializedRecord rec := by
    simp only [recordHeader, serializedRecord, htag, hcl]
  have hflush : hprofFlushRecord rec fp =
      .ok ({ rec with dirty := false, length := 0 },
           { fp with data := fp.data ++ serializedRecord rec }) := by
    simp only [hprofFlushRecord, hfp, Bool.false_eq_true, if_false, List.append_assoc, hser]
  refine ⟨_, _, hflush, rfl, hlay.1, hlay.2.1, hlay.2.2.1, hlay.2.2.2.1, hlay.2.2.2.2.1,
    hlay.2.2.2.2.2.1, hlay.2.2.2.2.2.2.1, hlay.2.2.2.2.2.2.2, rfl, rfl, ?_⟩
  intro ctx hrec hsink
  refine ⟨{ ctx with curRec := { rec with dirty := false, length := 0 },
                     memFp := { fp with data := fp.data ++ serializedRecord rec } }, ?_, rfl, rfl⟩
  simp only [hprofFlushCurrentRecord, hrec, hsink, hflush]

/-- Witness for C1: flushing `sampleRecord` to an empty working sink writes its ten bytes. -/
theorem hprofFlushRecord_writes_serialized_witness :
    sampleRecord.WF ∧ emptySink.failing = false ∧
    ∃ rec1 fp1, hprofFlushRecord sampleRecord emptySink = .ok (rec1, fp1) ∧
      fp1.data = emptySink.data ++ serializedRecord sampleRecord ∧
      serializedRecord sampleRecord = [0x1C, 0, 0, 0, 0, 0, 0, 0, 1, 0xFF] :=
  ⟨by decide, rfl,
   match hprofFlushRecord_writes_serialized sampleRecord emptySink (by decide) rfl with
   | ⟨rec1, fp1, h1, h2, _⟩ => ⟨rec1, fp1, h1, h2, by decide⟩⟩

/-! ## Identifiers -/

/-- C3: an identifier is 4 bytes wide, `hprofAddIdToRecord(rec, id)` is
`hprofAddU4ToRecord(rec, (uint32_t) id)`, which appends the `HPROF_ID_SIZE` big-endian bytes of
the id and, `hprofAddU4ToRecord` taking a `uint32_t`, is also `hprofAddU4ToRecord(rec, id)`;
`hprofAddIdListToRecord(rec, values, n)` is `hprofAddU4ListToRecord(rec, values, n)`. -/
theorem hprofAddId_is_hprofAddU4 :
    HPROF_ID_SIZE = 4 ∧
    (∀ (mem : Nat → Bool) (rec : hprof_record_t) (id : Nat),
      hprofAddIdToRecord mem rec id = hprofAddU4ToRecord mem rec (id % 2 ^ 32)) ∧
    (∀ (mem : Nat → Bool) (rec : hprof_record_t) (id : Nat),
      hprofAddIdToRecord mem rec id = hprofAddU4ToRecord mem rec id) ∧
    (∀ (mem : Nat → Bool) (rec : hprof_record_t) (id : Nat),
      hprofAddIdToRecord mem rec id = appendBytes mem rec (beBytes HPROF_ID_SIZE id)) ∧
    (∀ (mem : Nat → Bool) (rec : hprof_record_t) (values : List Nat) (numValues : Nat),
      hprofAddIdListToRecord mem rec values numValues
        = hprofAddU4ListToRecord mem rec values numValues) ∧
    (∀ (mem : Nat → Bool) (rec : hprof_record_t) (values : List Nat) (numValues : Nat),
      hprofAddIdListToRecord mem rec values numValues
        = appendBytes mem rec (beBytesList HPROF_ID_SIZE values numValues)) := by
  have hmod : ∀ id : Nat, beBytes 4 (id % 2 ^ 32) = beBytes 4 id := by
    intro id
    have h := beBytes_mod 4 4 id (le_refl 4)
    norm_num at h ⊢
    exact h
  refine ⟨rfl, fun _ _ _ => rfl, ?_, ?_, fun _ _ _ _ => rfl, fun _ _ _ _ => rfl⟩
  · intro mem rec id
    simp only [hprofAddIdToRecord, hprofAddU4ToRecord, hmod]
  · intro mem rec id
    simp only [hprofAddIdToRecord, hprofAddU4ToRecord, hmod]
    rfl

/-! ## String interning -/

theorem lookup_mem (l : List (List Nat × Nat)) (s : List Nat) (a : Nat)
    (h : l.lookup s = some a) : (s, a) ∈ l := by
  induction l with
  | nil => simp at h
  | cons e l ih =>
    obtain ⟨k, b⟩ := e
    rw [List.lookup_cons] at h
    by_cases hk : s = k
    · subst hk; simp at h; subst h; simp
    · have hb : (s == k) = false := by simpa using hk
      rw [hb] at h
      exact List.mem_cons_of_mem _ (ih h)

theorem lookup_append_left (l r : List (List Nat × Nat)) (s : List Nat) (a : Nat)
    (h : l.lookup s = some a) : (l ++ r).lookup s = some a := by
  rw [List.lookup_append, h, Option.or_some]

theorem StringTable.Inv.snd_nodup {first : Nat} {t : StringTable} (h : t.Inv first)
    (hn : t.entries.length ≤ 2 ^ 32) : (t.entries.map Prod.snd).Nodup := by
  rw [h.1]
  apply List.Nodup.map_on _ (List.nodup_range _)
  intro x hx y hy hxy
  simp only [List.mem_range] at hx hy
  simp only at hxy
  omega

/-- Two contents with the same id in a table are the same content. -/
theorem StringTable.Inv.lookup_inj {first : Nat} {t : StringTable} (h : t.Inv first)
    (hn : t.entries.length ≤ 2 ^ 32) {s1 s2 : List Nat} {a : Nat}
    (h1 : t.entries.lookup s1 = some a) (h2 : t.entries.lookup s2 = some a) : s1 = s2 := by
  have hinj := List.inj_on_of_nodup_map (h.snd_nodup hn) (lookup_mem _ _ _ h1)
    (lookup_mem _ _ _ h2) rfl
  exact (Prod.mk.inj hinj).1

/-- One lookup on an initialized table succeeds; the table afterwards extends the one before
by at most one entry and holds the returned id for the content. -/
theorem hprofLookupStringId_step (first : Nat) (t : StringTable) (s : List Nat)
    (h : t.Inv first) :
    ∃ id t1 r, hprofLookupStringId (some t) s = .ok (id, some t1) ∧ t1.Inv first ∧
      t1.entries = t.entries ++ r ∧ r.length ≤ 1 ∧ t1.entries.lookup s = some id := by
  cases hl : t.entries.lookup s with
  | some id =>
    refine ⟨id, t, [], ?_, h, by simp, by simp, hl⟩
    simp only [hprofLookupStringId, hl]
  | none =>
    refine ⟨t.nextId, { entries := t.entries ++ [(s, t.nextId)],
                        nextId := (t.nextId + 1) % 2 ^ 32 }, [(s, t.nextId)], ?_, ?_, rfl,
      by simp, ?_⟩
    · simp only [hprofLookupStringId, hl]
    · constructor
      · simp only [List.map_append, List.length_append, List.length_singleton, List.map_cons,
          List.map_nil]
        rw [List.range_succ, List.map_append, h.1, h.2]
        simp
      · simp only [List.length_append, List.length_singleton]
        rw [h.2]
        omega
    · simp only
      rw [List.lookup_append, hl]
      simp [List.lookup_cons]

/-- The lookups of a dump all succeed on an initialized table; each returned id is the id the
final table holds for that content. -/
theorem lookupAll_ok (first : Nat) (ss : List (List Nat)) :
    ∀ t : StringTable, t.Inv first →
      ∃ t1 : StringTable, lookupAll (some t) ss = .ok (ss.map t1.idOf, some t1) ∧
        t1.Inv first ∧ (∃ r, t1.entries = t.entries ++ r) ∧
        t1.entries.length ≤ t.entries.length + ss.length ∧
        ∀ s ∈ ss, ∃ a, t1.entries.lookup s = some a := by
  induction ss with
  | nil =>
    intro t h
    exact ⟨t, rfl, h, ⟨[], by simp⟩, by simp, by simp⟩
  | cons s ss ih =>
    intro t h
    obtain ⟨id, t0, r, hstep, hinv, hent, hr, hlook⟩ := hprofLookupStringId_step first t s h
    obtain ⟨t1, hrun, hinv1, ⟨r1, hr1⟩, hlen1, hall⟩ := ih t0 hinv
    have hs : t1.entries.lookup s = some id := by
      rw [hr1]; exact lookup_append_left _ _ _ _ hlook
    refine ⟨t1, ?_, hinv1, ⟨r ++ r1, by rw [hr1, hent, List.append_assoc]⟩, ?_, ?_⟩
    · simp only [lookupAll, hstep, hrun, List.map_cons]
      simp [StringTable.idOf, hs]
    · rw [hent] at hlen1
      simp only [List.length_append, List.length_cons] at hlen1 ⊢
      omega
    · intro x hx
      rcases List.mem_cons.1 hx with rfl | hx
      · exact ⟨id, hs⟩
      · exact hall x hx

/-- C6: within one dump (a sequence of at most `2 ^ 32` lookups after `hprofStartup_String`)
every lookup succeeds, and two lookups return equal ids if and only if they were given
byte-for-byte equal contents, wherever in the sequence they are. -/
theorem hprofLookupStringId_equal_ids_iff (first : Nat) (ss : List (List Nat))
    (hn : ss.length ≤ 2 ^ 32) :
    ∃ ids table, lookupAll (hprofStartup_String first) ss = .ok (ids, table) ∧
      ids.length = ss.length ∧
      ∀ i j : Nat, i < ss.length → j < ss.length → (ids[i]? = ids[j]? ↔ ss[i]? = ss[j]?) := by
  have hinv0 : StringTable.Inv first { entries := [], nextId := first % 2 ^ 32 } := by
    simp [StringTable.Inv]
  obtain ⟨t1, hrun, hinv1, -, hlen1, hall⟩ := lookupAll_ok first ss _ hinv0
  simp only [List.length_nil, Nat.zero_add] at hlen1
  refine ⟨ss.map t1.idOf, some t1, hrun, by simp, ?_⟩
  intro i j hi hj
  rw [List.getElem?_map, List.getElem?_map, List.getElem?_eq_getElem hi,
    List.getElem?_eq_getElem hj]
  simp only [Option.map_some', Option.some.injEq]
  constructor
  · intro hid
    obtain ⟨a, ha⟩ := hall ss[i] (List.getElem_mem _)
    obtain ⟨b, hb⟩ := hall ss[j] (List.getElem_mem _)
    simp only [StringTable.idOf, ha, hb, Option.getD_some] at hid
    subst hid
    exact hinv1.lookup_inj (le_trans hlen1 hn) ha hb
  · intro hs
    rw [hs]

/-- Witness for C6: the contents `hi`, `yo`, `hi` looked up in this order, ids starting at 1. -/
theorem hprofLookupStringId_equal_ids_iff_witness :
    ∃ ids table,
      lookupAll (hprofStartup_String 1) [[104, 105], [121, 111], [104, 105]] = .ok (ids, table) ∧
      ids.length = [[104, 105], [121, 111], [104, 105]].length ∧
      ∀ i j : Nat, i < [[104, 105], [121, 111], [104, 105]].length →
        j < [[104, 105], [121, 111], [104, 105]].length →
        (ids[i]? = ids[j]? ↔
          [[104, 105], [121, 111], [104, 105]][i]? = [[104, 105], [121, 111], [104, 105]][j]?) :=
  hprofLookupStringId_equal_ids_iff 1 [[104, 105], [121, 111], [104, 105]] (by decide)

end art.hprof
